import Mathlib

/-!
Verification of the diffusion engine of `src/main.py` (function `simulate`
and its helpers) against its natural-language specification.

The embedding models:
  * nodes as records of the attributes the engine reads
    (`identity_type`, `credulity`, `tendency_to_share`, `is_fact_checker`,
    `state`, `infection_time`); an absent attribute is `none`
    (for `infection_time`, Python `None` and an absent key are
    indistinguishable to the engine, both read back as `None`);
  * the graph as a list of (id, attributes) pairs plus a directed edge list
    carrying the optional `trust_weight` attribute;
  * Python's global `random` module as a stream of rationals with a cursor;
    `random.seed(s)` installs the stream `seedFn s` and resets the cursor,
    and `random.random()` reads the value at the cursor and advances it;
  * probabilities as rationals;
  * the `KeyError` that `G.nodes[s]` raises for a missing node id as an
    `Except.error`.
-/

structure NodeData where
  identity_type : Option String
  credulity : Option ℚ
  tendency_to_share : Option ℚ
  is_fact_checker : Bool
  state : Option String
  infection_time : Option ℕ
deriving DecidableEq, Repr

structure Edge where
  src : ℕ
  dst : ℕ
  trust_weight : Option ℚ
deriving DecidableEq, Repr

structure Graph where
  nodes : List (ℕ × NodeData)
  edges : List Edge
deriving DecidableEq, Repr

/-- Dictionary lookup over a node list (first entry with the id). -/
def lookupNode : List (ℕ × NodeData) → ℕ → Option NodeData
  | [], _ => none
  | p :: ps, n => if p.1 = n then some p.2 else lookupNode ps n

/-- Python `G.nodes[n]`: attribute record of node `n`. -/
def findNode (G : Graph) (n : ℕ) : Option NodeData :=
  lookupNode G.nodes n

/-- Python `list(G.neighbors(u))`: out-neighbors of `u` in edge-list order. -/
def neighbors (G : Graph) (u : ℕ) : List ℕ :=
  G.edges.filterMap (fun e => if e.src = u then some e.dst else none)

/-- Python `get_edge_attr(G, u, v, "trust_weight", None)`. -/
def get_edge_attr (G : Graph) (u v : ℕ) : Option ℚ :=
  (G.edges.find? (fun e => e.src == u && e.dst == v)).bind Edge.trust_weight

/-- Python `set_node_attr(G, n, "state", s)`. -/
def setNodeState (G : Graph) (n : ℕ) (s : String) : Graph :=
  { G with nodes := G.nodes.map (fun p =>
      if p.1 = n then (p.1, { p.2 with state := some s }) else p) }

/-- Python `set_node_attr(G, n, "infection_time", t)`. -/
def setNodeTime (G : Graph) (n : ℕ) (t : Option ℕ) : Graph :=
  { G with nodes := G.nodes.map (fun p =>
      if p.1 = n then (p.1, { p.2 with infection_time := t }) else p) }

/-- Python `get_infected_nodes(G)`: ids whose `state` attribute is `"infected"`,
in node-list order. -/
def get_infected_nodes (G : Graph) : List ℕ :=
  G.nodes.filterMap (fun p => if p.2.state = some "infected" then some p.1 else none)

/-- The four keyword defaults of `simulate`. -/
structure Defaults where
  default_propensity_anonymous : ℚ
  default_propensity_verified : ℚ
  default_trust_from_verified : ℚ
  default_trust_from_anonymous : ℚ
deriving DecidableEq, Repr

/-- The global `random` module: a stream of draws and a cursor. -/
structure RNG where
  stream : ℕ → ℚ
  pos : ℕ

/-- Python `random.random()`: the draw at the cursor, and the advanced generator. -/
def RNG.next (g : RNG) : ℚ × RNG :=
  (g.stream g.pos, ⟨g.stream, g.pos + 1⟩)

/-- The source's effective `tendency_to_share` of `u` (main.py lines
128-133): the explicit attribute if present, else the default selected by
`u`'s `identity_type`, which itself falls back to `"anonymous"`. -/
def effectiveTendency (d : Defaults) (ud : NodeData) : ℚ :=
  match ud.tendency_to_share with
  | some x => x
  | none =>
    if ud.identity_type.getD "anonymous" = "anonymous" then
      d.default_propensity_anonymous
    else d.default_propensity_verified

/-- The effective trust of edge `(u, v)` (main.py lines 143-146): the edge's
`trust_weight` if present, else the default selected by the source `u`'s
`identity_type` (fallback `"anonymous"`); `ud` is `u`'s attribute record. -/
def effectiveTrust (G : Graph) (d : Defaults) (u v : ℕ) (ud : NodeData) : ℚ :=
  match get_edge_attr G u v with
  | some t => t
  | none =>
    if ud.identity_type.getD "anonymous" = "verified" then
      d.default_trust_from_verified
    else d.default_trust_from_anonymous

/-- The exposure probability the inner loop body (main.py lines 135-151)
records against neighbor `w` of source `u`, if any: `none` when `w` is a
fact-checker, is not currently `"uninfected"`, or the product is not
positive. -/
def contribAt (G : Graph) (d : Defaults) (ud : NodeData) (u w : ℕ) : Option ℚ :=
  match findNode G w with
  | none => none
  | some vd =>
    if vd.is_fact_checker then none
    else if vd.state.getD "uninfected" = "uninfected" then
      let p := vd.credulity.getD 0 * effectiveTendency d ud * effectiveTrust G d u w ud
      if 0 < p then some p else none
    else none

/-- Python `exposures[v].append(p)` on the insertion-ordered dict
`exposures : defaultdict(list)`. -/
def addExposure : List (ℕ × List ℚ) → ℕ → ℚ → List (ℕ × List ℚ)
  | [], v, p => [(v, [p])]
  | q :: ex, v, p =>
    if q.1 = v then (q.1, q.2 ++ [p]) :: ex else q :: addExposure ex v p

/-- Body of `for u in list(current_infected)` (main.py lines 124-151):
process one source `u`, appending its recorded exposures. -/
def exposeFrom (G : Graph) (d : Defaults) (ex : List (ℕ × List ℚ)) (u : ℕ) :
    List (ℕ × List ℚ) :=
  match findNode G u with
  | none => ex
  | some ud =>
    if ud.is_fact_checker then ex
    else
      (neighbors G u).foldl (fun ex w =>
        match contribAt G d ud u w with
        | some p => addExposure ex w p
        | none => ex) ex

/-- The full exposure-gathering pass of one step: the `exposures` dict after
processing the sources of `cur` in order. -/
def collectExposures (G : Graph) (d : Defaults) (cur : List ℕ) : List (ℕ × List ℚ) :=
  cur.foldl (exposeFrom G d) []

/-- Python `p_total = 1 - prob_no` with `prob_no = Π (1 - p_i)` accumulated by the
loop of main.py lines 155-158. -/
def noisyOr (ps : List ℚ) : ℚ :=
  1 - ps.foldl (fun acc p => acc * (1 - p)) 1

/-- Sampling loop (main.py lines 153-160): one uniform draw per exposed
node, in dict order; the node is newly infected when the draw is below its
combined probability. -/
def sampleNewly (g : RNG) (ex : List (ℕ × List ℚ)) : List ℕ × RNG :=
  ex.foldl (fun st q =>
    let r := st.2.next
    if r.1 < noisyOr q.2 then (st.1 ++ [q.1], r.2) else (st.1, r.2)) ([], g)

/-- State application (main.py lines 162-164): mark each newly infected
node and stamp its infection time. -/
def applyNewly (G : Graph) (t : ℕ) (newly : List ℕ) : Graph :=
  newly.foldl (fun G v => setNodeTime (setNodeState G v "infected") v (some t)) G

/-- One iteration of the step loop at time `t`: gather exposures from the
snapshot `cur`, sample, then apply. Returns the updated graph, the newly
infected list, and the advanced generator. -/
def stepRound (G : Graph) (d : Defaults) (cur : List ℕ) (t : ℕ) (g : RNG) :
    Graph × List ℕ × RNG :=
  let ex := collectExposures G d cur
  let (newly, g2) := sampleNewly g ex
  (applyNewly G t newly, newly, g2)

/-- Mutable state of the step loop. -/
structure SimState where
  graph : Graph
  current : List ℕ
  rng : RNG
  infection_history : List (List ℕ)
  time_series_new : List ℕ
  time_series_total : List ℕ

/-- The step loop `for t in range(1, timesteps + 1)` (main.py lines
121-170), with `k` steps remaining and `t` the current step index. -/
def runSteps (d : Defaults) : ℕ → ℕ → SimState → SimState
  | _, 0, st => st
  | t, Nat.succ k, st =>
    let out := stepRound st.graph d st.current t st.rng
    let cur2 := get_infected_nodes out.1
    runSteps d (t + 1) k
      { graph := out.1
        current := cur2
        rng := out.2.2
        infection_history := st.infection_history ++ [cur2]
        time_series_new := st.time_series_new ++ [out.2.1.length]
        time_series_total := st.time_series_total ++ [cur2.length] }

/-- The "Reset node states" loop (main.py lines 101-104): writes back
`data.get("state", "uninfected")` and `data.get("infection_time", None)`,
so a pre-existing value is kept and only missing attributes are filled in. -/
def resetStates (G : Graph) : Graph :=
  { G with nodes := G.nodes.map (fun p =>
      (p.1, { p.2 with state := some (p.2.state.getD "uninfected") })) }

/-- One iteration of the seeding loop (main.py lines 107-110). Reading any
attribute of a missing node id raises `KeyError`. -/
def seedOne (G : Graph) (s : Option ℕ) : Except String Graph :=
  match s with
  | none => Except.ok G
  | some s =>
    match findNode G s with
    | none => Except.error "KeyError"
    | some nd =>
      if nd.is_fact_checker then Except.ok G
      else if nd.state.isSome then
        Except.ok (setNodeTime (setNodeState G s "infected") s (some 0))
      else Except.ok G

/-- The seeding loop over `initial_infected_list`. -/
def seedAll (G : Graph) (seeds : List (Option ℕ)) : Except String Graph :=
  seeds.foldlM seedOne G

/-- The dictionary `simulate` returns (main.py lines 174-180). -/
structure SimResult where
  time_series_new : List ℕ
  time_series_total : List ℕ
  infection_times : List (ℕ × Option ℕ)
  infection_history : List (List ℕ)
  final_infected : List ℕ
deriving DecidableEq, Repr

/-- The generator in force after the optional `random.seed(random_seed)`
call (main.py lines 98-99): a freshly seeded stream when a seed is given,
the ambient generator otherwise. -/
def seededRng (seedFn : ℕ → ℕ → ℚ) (g0 : RNG) (rs : Option ℕ) : RNG :=
  match rs with
  | some s => ⟨seedFn s, 0⟩
  | none => g0

/-- The loop state right after seeding (main.py lines 112-117). -/
def initSimState (g1 : RNG) (G2 : Graph) : SimState :=
  { graph := G2
    current := get_infected_nodes G2
    rng := g1
    infection_history := [get_infected_nodes G2]
    time_series_new := [(get_infected_nodes G2).length]
    time_series_total := [(get_infected_nodes G2).length] }

/-- The returned dictionary (main.py lines 172-180). -/
def buildResult (stF : SimState) : Graph × SimResult :=
  (stF.graph,
    { time_series_new := stF.time_series_new
      time_series_total := stF.time_series_total
      infection_times := stF.graph.nodes.map (fun p => (p.1, p.2.infection_time))
      infection_history := stF.infection_history
      final_infected := (stF.graph.nodes.map (fun p => (p.1, p.2.infection_time))).filterMap
        (fun q => if q.2.isSome then some q.1 else none) })

/-- Function `simulate` (main.py lines 87-180). `seedFn` models the Python runtime's
seeding of the Mersenne generator: `random.seed(s)` installs the stream
`seedFn s`; when `random_seed` is `None` the ambient generator `g0` is used
as-is. The returned graph is the in-place-mutated input graph. -/
def simulate (seedFn : ℕ → ℕ → ℚ) (g0 : RNG) (G : Graph)
    (initial_infected_list : List (Option ℕ)) (timesteps : ℕ)
    (random_seed : Option ℕ) (d : Defaults) : Except String (Graph × SimResult) :=
  let g1 := seededRng seedFn g0 random_seed
  match seedAll (resetStates G) initial_infected_list with
  | Except.error e => Except.error e
  | Except.ok G2 => Except.ok (buildResult (runSteps d 1 timesteps (initSimState g1 G2)))

/-!  Spec-side (declarative) descriptions, for comparison with the engine. -/

/-- The exposure probabilities source `u` contributes to target `v` in one
round, one entry per out-edge occurrence: the spec's
`p = credulity(v) × tendency_to_share(u) × trust(u, v)`, recorded exactly
when `p > 0`, `u` and `v` are not fact-checkers and `v` is uninformed. -/
def sourceContribs (G : Graph) (d : Defaults) (u v : ℕ) : List ℚ :=
  match findNode G u with
  | none => []
  | some ud =>
    if ud.is_fact_checker then []
    else (neighbors G u).filterMap (fun w =>
      if w = v then contribAt G d ud u w else none)

/-- The full list of exposure probabilities recorded against `v` in one
round, in source order: the spec's "a node may accumulate zero, one, or
many such probabilities in the same round, one per exposing source". -/
def specExposureList (G : Graph) (d : Defaults) (cur : List ℕ) (v : ℕ) : List ℚ :=
  (cur.map (fun u => sourceContribs G d u v)).flatten

/-- Lookup of target `v` in the exposures dict (`[]` when absent). -/
def exLookup : List (ℕ × List ℚ) → ℕ → List ℚ
  | [], _ => []
  | q :: ex, v => if q.1 = v then q.2 else exLookup ex v

/-!  Result extractors used to state properties of whole runs. -/

/-- The `infection_history` of a run, `[]` when the run raised. -/
def historyOf (r : Except String (Graph × SimResult)) : List (List ℕ) :=
  match r with
  | Except.ok pr => pr.2.infection_history
  | Except.error _ => []

/-- The `state` attribute of node `n` after a run, `none` when the run
raised. -/
def stateOf (r : Except String (Graph × SimResult)) (n : ℕ) : Option String :=
  match r with
  | Except.ok pr => (findNode pr.1 n).bind NodeData.state
  | Except.error _ => none

/-- The `infection_time` attribute of node `n` after a run, `none` when the
run raised. -/
def timeOf (r : Except String (Graph × SimResult)) (n : ℕ) : Option ℕ :=
  match r with
  | Except.ok pr => (findNode pr.1 n).bind NodeData.infection_time
  | Except.error _ => none

/-- A node record with the engine-owned mutable attributes erased; used to
state that everything else is left alone. -/
def scrub (nd : NodeData) : NodeData :=
  { nd with state := none, infection_time := none }

/-- The node ids of `G`, in insertion order. -/
def idsOf (G : Graph) : List ℕ := G.nodes.map Prod.fst

/-- The `is_fact_checker` flag of node `n`, `none` when `n` is absent. -/
def fcOf (G : Graph) (n : ℕ) : Option Bool :=
  (findNode G n).map NodeData.is_fact_checker

/-- The node list of `G` with the mutable attributes erased. -/
def nodesScrub (G : Graph) : List (ℕ × NodeData) :=
  G.nodes.map (fun p => (p.1, scrub p.2))

/-- Every fact-checker entry of `G` is uninformed with no infection time. -/
def FcU (G : Graph) : Prop :=
  ∀ p ∈ G.nodes, p.2.is_fact_checker = true →
    p.2.state = some "uninfected" ∧ p.2.infection_time = none

/-- The error of a failed run, `none` when the run returned normally. -/
def errOf (r : Except String (Graph × SimResult)) : Option String :=
  match r with
  | Except.error e => some e
  | Except.ok _ => none

/-- The graph after a run (the empty graph when the run raised). -/
def graphOf (r : Except String (Graph × SimResult)) : Graph :=
  match r with
  | Except.ok pr => pr.1
  | Except.error _ => ⟨[], []⟩

/-!  Concrete instances used by witnesses and counterexamples. -/

/-- A constant seeded stream. -/
def cstStream : ℕ → ℕ → ℚ := fun _ _ => 1/2

/-- A concrete ambient generator. -/
def rngC : RNG := ⟨fun _ => 1/2, 0⟩

/-- The keyword defaults of `simulate`. -/
def dDef : Defaults := ⟨8/10, 3/10, 9/10, 3/10⟩

/-- A node carrying no attributes. -/
def ndBlank : NodeData := ⟨none, none, none, false, none, none⟩

/-- Two already-informed sources 0 and 1 with one private target each:
node 2 is exposed only by 0 (probability 9/10), node 3 only by 1
(probability 1/10). -/
def Gorder : Graph :=
  { nodes := [(0, { ndBlank with tendency_to_share := some (9/10), state := some "infected" }),
              (1, { ndBlank with tendency_to_share := some 1, state := some "infected" }),
              (2, { ndBlank with credulity := some 1 }),
              (3, { ndBlank with credulity := some 1 })]
    edges := [⟨0, 2, some 1⟩, ⟨1, 3, some (1/10)⟩] }

/-- A generator whose first draw is 1/20 and whose later draws are 1/2. -/
def gOrder : RNG := ⟨fun n => if n = 0 then 1/20 else 1/2, 0⟩

/-- A graph whose only node arrives already marked `"infected"`. -/
def Gdirty : Graph :=
  { nodes := [(0, { ndBlank with state := some "infected" })], edges := [] }

/-- A one-node graph with a blank node. -/
def Gsolo : Graph := { nodes := [(0, ndBlank)], edges := [] }

/-- Defaults with `default_propensity_anonymous = 2`, outside [0,1]. -/
def dBad : Defaults := ⟨2, 3/10, 9/10, 3/10⟩

/-- A graph whose only node is a fact-checker already marked `"infected"`. -/
def Gfc : Graph :=
  { nodes := [(0, { ndBlank with is_fact_checker := true, state := some "infected" })]
    edges := [] }

/-- A fact-checker next to an informed source, with a pre-set
`infection_time`. -/
def GfcClean : Graph :=
  { nodes := [(0, { ndBlank with tendency_to_share := some 1, state := some "infected" }),
              (1, { ndBlank with credulity := some 1, is_fact_checker := true })]
    edges := [⟨0, 1, some 1⟩] }

/-!  ## Exposure-dict lemmas -/

theorem exLookup_addExposure (ex : List (ℕ × List ℚ)) (v : ℕ) (p : ℚ) (w : ℕ) :
    exLookup (addExposure ex v p) w =
      if w = v then exLookup ex w ++ [p] else exLookup ex w := by
  induction ex with
  | nil =>
    by_cases hwv : w = v
    · subst hwv; simp [addExposure, exLookup]
    · simp [addExposure, exLookup, hwv, Ne.symm hwv]
  | cons q ex ih =>
    by_cases hqv : q.1 = v
    · by_cases hqw : q.1 = w
      · have hwv : w = v := hqw ▸ hqv
        subst hwv
        simp [addExposure, exLookup, hqv, hqw]
      · have hwv : ¬ w = v := fun h => hqw (h ▸ hqv)
        simp [addExposure, exLookup, hqv, hqw, hwv, Ne.symm hwv]
    · by_cases hqw : q.1 = w
      · have hwv : ¬ w = v := fun h => hqv (h ▸ hqw)
        simp [addExposure, exLookup, hqv, hqw, hwv]
      · simp [addExposure, exLookup, hqv, hqw, ih]

theorem exLookup_foldNeighbors (G : Graph) (d : Defaults) (ud : NodeData)
    (u : ℕ) (l : List ℕ) (ex : List (ℕ × List ℚ)) (v : ℕ) :
    exLookup (l.foldl (fun ex w =>
        match contribAt G d ud u w with
        | some p => addExposure ex w p
        | none => ex) ex) v =
      exLookup ex v ++ l.filterMap (fun w => if w = v then contribAt G d ud u w else none) := by
  induction l generalizing ex with
  | nil => simp
  | cons w l ih =>
    rw [List.foldl_cons, ih, List.filterMap_cons]
    by_cases hwv : w = v
    · subst hwv
      cases hc : contribAt G d ud u w with
      | none => simp [hc]
      | some p => simp [hc, exLookup_addExposure]
    · cases hc : contribAt G d ud u w with
      | none => simp [hc, hwv]
      | some p =>
        simp [hc, hwv, exLookup_addExposure]
        exact Ne.symm hwv

theorem exLookup_exposeFrom (G : Graph) (d : Defaults) (ex : List (ℕ × List ℚ))
    (u v : ℕ) :
    exLookup (exposeFrom G d ex u) v = exLookup ex v ++ sourceContribs G d u v := by
  unfold exposeFrom sourceContribs
  cases hf : findNode G u with
  | none => simp
  | some ud =>
    cases hfc : ud.is_fact_checker with
    | true => simp [hfc]
    | false =>
      simp only [hfc, Bool.false_eq_true, if_false]
      exact exLookup_foldNeighbors G d ud u (neighbors G u) ex v

theorem exLookup_collect_aux (G : Graph) (d : Defaults) (cur : List ℕ)
    (ex : List (ℕ × List ℚ)) (v : ℕ) :
    exLookup (cur.foldl (exposeFrom G d) ex) v =
      exLookup ex v ++ specExposureList G d cur v := by
  induction cur generalizing ex with
  | nil => simp [specExposureList]
  | cons u cur ih =>
    rw [List.foldl_cons, ih, exLookup_exposeFrom]
    simp [specExposureList]

theorem exLookup_collectExposures (G : Graph) (d : Defaults) (cur : List ℕ) (v : ℕ) :
    exLookup (collectExposures G d cur) v = specExposureList G d cur v := by
  unfold collectExposures
  rw [exLookup_collect_aux]
  rfl

theorem noisyOr_eq_one_sub_prod (ps : List ℚ) :
    noisyOr ps = 1 - (ps.map (fun p => 1 - p)).prod := by
  rw [noisyOr, List.prod_eq_foldl, List.foldl_map]

theorem noisyOr_perm {ps qs : List ℚ} (h : ps.Perm qs) : noisyOr ps = noisyOr qs := by
  rw [noisyOr_eq_one_sub_prod, noisyOr_eq_one_sub_prod, (h.map _).prod_eq]

theorem specExposureList_perm (G : Graph) (d : Defaults) {cur cur2 : List ℕ}
    (h : cur.Perm cur2) (v : ℕ) :
    (specExposureList G d cur v).Perm (specExposureList G d cur2 v) :=
  (h.map _).flatten

/-!  ## Graph-update lemmas -/

theorem lookupNode_mem {ps : List (ℕ × NodeData)} {n : ℕ} {nd : NodeData}
    (h : lookupNode ps n = some nd) : (n, nd) ∈ ps := by
  induction ps with
  | nil => simp [lookupNode] at h
  | cons p ps ih =>
    by_cases hp : p.1 = n
    · simp only [lookupNode, hp, if_pos, Option.some.injEq] at h
      rw [← hp, ← h]
      exact List.mem_cons_self p ps
    · simp only [lookupNode, hp, if_false, if_neg, not_false_iff] at h
      exact List.mem_cons_of_mem _ (ih h)

theorem lookupNode_of_mem_nodup {ps : List (ℕ × NodeData)} {p : ℕ × NodeData}
    (hmem : p ∈ ps) (hnd : (ps.map Prod.fst).Nodup) :
    lookupNode ps p.1 = some p.2 := by
  induction ps with
  | nil => simp at hmem
  | cons q ps ih =>
    rcases List.mem_cons.mp hmem with rfl | hmem2
    · simp [lookupNode]
    · rw [List.map_cons] at hnd
      have hnd' := List.nodup_cons.mp hnd
      have hq : q.1 ≠ p.1 := fun he =>
        hnd'.1 (he ▸ List.mem_map_of_mem Prod.fst hmem2)
      simp only [lookupNode, hq, if_neg, not_false_iff]
      exact ih hmem2 hnd'.2

theorem lookupNode_map_upd (ps : List (ℕ × NodeData)) (v : ℕ)
    (f : NodeData → NodeData) (n : ℕ) :
    lookupNode (ps.map (fun p => if p.1 = v then (p.1, f p.2) else p)) n =
      if n = v then (lookupNode ps n).map f else lookupNode ps n := by
  induction ps with
  | nil => simp [lookupNode]
  | cons p ps ih =>
    by_cases hpv : p.1 = v <;> by_cases hpn : p.1 = n
    · have hnv : n = v := by omega
      simp [lookupNode, hpv, hpn, hnv]
    · have hnv : ¬ n = v := fun h => hpn (h ▸ hpv)
      have hvn : ¬ v = n := fun h => hpn (hpv.trans h)
      simp [lookupNode, hpv, hpn, hnv, hvn, ih]
    · have hnv : ¬ n = v := fun h => hpv (hpn.trans h)
      simp [lookupNode, hpv, hpn, hnv, ih]
    · simp [lookupNode, hpv, hpn, ih]

theorem lookupNode_map_all (ps : List (ℕ × NodeData)) (g : NodeData → NodeData)
    (n : ℕ) :
    lookupNode (ps.map (fun p => (p.1, g p.2))) n = (lookupNode ps n).map g := by
  induction ps with
  | nil => simp [lookupNode]
  | cons p ps ih =>
    by_cases hpn : p.1 = n <;> simp [lookupNode, hpn, ih]

theorem findNode_setNodeState (G : Graph) (v : ℕ) (s : String) (n : ℕ) :
    findNode (setNodeState G v s) n =
      if n = v then (findNode G n).map (fun nd => { nd with state := some s })
      else findNode G n :=
  lookupNode_map_upd G.nodes v (fun nd => { nd with state := some s }) n

theorem findNode_setNodeTime (G : Graph) (v : ℕ) (t : Option ℕ) (n : ℕ) :
    findNode (setNodeTime G v t) n =
      if n = v then (findNode G n).map (fun nd => { nd with infection_time := t })
      else findNode G n :=
  lookupNode_map_upd G.nodes v (fun nd => { nd with infection_time := t }) n

theorem findNode_resetStates (G : Graph) (n : ℕ) :
    findNode (resetStates G) n =
      (findNode G n).map (fun nd => { nd with state := some (nd.state.getD "uninfected") }) :=
  lookupNode_map_all G.nodes
    (fun nd => { nd with state := some (nd.state.getD "uninfected") }) n

theorem edges_setNodeState (G : Graph) (v : ℕ) (s : String) :
    (setNodeState G v s).edges = G.edges := rfl

theorem edges_setNodeTime (G : Graph) (v : ℕ) (t : Option ℕ) :
    (setNodeTime G v t).edges = G.edges := rfl

theorem edges_resetStates (G : Graph) : (resetStates G).edges = G.edges := rfl

theorem edges_applyNewly (G : Graph) (t : ℕ) (newly : List ℕ) :
    (applyNewly G t newly).edges = G.edges := by
  induction newly generalizing G with
  | nil => rfl
  | cons v newly ih => exact (ih _).trans rfl

theorem edges_seedOne {G G2 : Graph} {s : Option ℕ}
    (h : seedOne G s = Except.ok G2) : G2.edges = G.edges := by
  cases s with
  | none => simp [seedOne] at h; rw [← h]
  | some s =>
    simp only [seedOne] at h
    cases hf : findNode G s with
    | none => rw [hf] at h; exact absurd h (by simp)
    | some nd =>
      rw [hf] at h
      by_cases hfc : nd.is_fact_checker = true
      · simp [hfc] at h; rw [← h]
      · by_cases hs : nd.state.isSome = true
        · simp [hfc, hs] at h; rw [← h]; rfl
        · simp [hfc, hs] at h; rw [← h]

theorem edges_seedAll {G G2 : Graph} {seeds : List (Option ℕ)}
    (h : seedAll G seeds = Except.ok G2) : G2.edges = G.edges := by
  induction seeds generalizing G with
  | nil => simp [seedAll, pure, Except.pure] at h; rw [← h]
  | cons s seeds ih =>
    rw [seedAll, List.foldlM_cons] at h
    cases hs : seedOne G s with
    | error e =>
      rw [hs] at h
      simp only [Bind.bind, Except.bind] at h
      exact Except.noConfusion h
    | ok G1 =>
      rw [hs] at h
      simp only [Bind.bind, Except.bind] at h
      have h2 : seedAll G1 seeds = Except.ok G2 := h
      rw [ih h2, edges_seedOne hs]

theorem edges_runSteps (d : Defaults) (t k : ℕ) (st : SimState) :
    (runSteps d t k st).graph.edges = st.graph.edges := by
  induction k generalizing t st with
  | zero => rfl
  | succ k ih =>
    rw [runSteps, ih]
    exact edges_applyNewly _ _ _

theorem mem_get_infected (G : Graph) (n : ℕ) :
    n ∈ get_infected_nodes G ↔
      ∃ p ∈ G.nodes, p.1 = n ∧ p.2.state = some "infected" := by
  simp only [get_infected_nodes, List.mem_filterMap]
  constructor
  · rintro ⟨p, hp, hf⟩
    by_cases h : p.2.state = some "infected"
    · simp only [h, if_pos, Option.some.injEq] at hf
      exact ⟨p, hp, hf, h⟩
    · simp [h] at hf
  · rintro ⟨p, hp, h1, h2⟩
    exact ⟨p, hp, by simp [h2, h1]⟩

theorem mem_infected_setNodeState_infected {G : Graph} {n : ℕ} (v : ℕ)
    (h : n ∈ get_infected_nodes G) :
    n ∈ get_infected_nodes (setNodeState G v "infected") := by
  rw [mem_get_infected] at h ⊢
  obtain ⟨p, hp, h1, h2⟩ := h
  by_cases hpv : p.1 = v
  · refine ⟨(p.1, { p.2 with state := some "infected" }), ?_, h1, rfl⟩
    have he : (fun p : ℕ × NodeData =>
        if p.1 = v then (p.1, { p.2 with state := some "infected" }) else p) p
        = (p.1, { p.2 with state := some "infected" }) := by simp [hpv]
    exact he ▸ List.mem_map_of_mem _ hp
  · refine ⟨p, ?_, h1, h2⟩
    have he : (fun p : ℕ × NodeData =>
        if p.1 = v then (p.1, { p.2 with state := some "infected" }) else p) p = p := by
      simp [hpv]
    exact he ▸ List.mem_map_of_mem _ hp

theorem get_infected_setNodeTime (G : Graph) (v : ℕ) (t : Option ℕ) :
    get_infected_nodes (setNodeTime G v t) = get_infected_nodes G := by
  unfold get_infected_nodes setNodeTime
  rw [List.filterMap_map]
  apply List.filterMap_congr
  intro p _
  simp only [Function.comp_apply]
  by_cases hpv : p.1 = v
  · rw [if_pos hpv]
  · rw [if_neg hpv]

theorem mem_infected_applyNewly {G : Graph} {n : ℕ} (t : ℕ) (newly : List ℕ)
    (h : n ∈ get_infected_nodes G) :
    n ∈ get_infected_nodes (applyNewly G t newly) := by
  induction newly generalizing G with
  | nil => exact h
  | cons v newly ih =>
    show n ∈ get_infected_nodes
      (applyNewly (setNodeTime (setNodeState G v "infected") v (some t)) t newly)
    apply ih
    rw [get_infected_setNodeTime]
    exact mem_infected_setNodeState_infected v h

/-!  ## Provenance of exposure keys and sampled nodes -/

theorem mem_addExposure {ex : List (ℕ × List ℚ)} {v : ℕ} {p : ℚ} {q : ℕ × List ℚ}
    (h : q ∈ addExposure ex v p) : q.1 = v ∨ q ∈ ex := by
  induction ex with
  | nil =>
    simp only [addExposure, List.mem_singleton] at h
    exact Or.inl (by rw [h])
  | cons r ex ih =>
    by_cases hrv : r.1 = v
    · simp only [addExposure, hrv, if_pos] at h
      rcases List.mem_cons.mp h with rfl | h2
      · exact Or.inl rfl
      · exact Or.inr (List.mem_cons_of_mem _ h2)
    · simp only [addExposure, hrv, if_neg, not_false_iff] at h
      rcases List.mem_cons.mp h with rfl | h2
      · exact Or.inr (List.mem_cons_self _ _)
      · rcases ih h2 with h3 | h3
        · exact Or.inl h3
        · exact Or.inr (List.mem_cons_of_mem _ h3)

theorem contribAt_some {G : Graph} {d : Defaults} {ud : NodeData} {u w : ℕ} {p : ℚ}
    (h : contribAt G d ud u w = some p) :
    ∃ vd, findNode G w = some vd ∧ vd.is_fact_checker = false ∧
      vd.state.getD "uninfected" = "uninfected" := by
  unfold contribAt at h
  cases hf : findNode G w with
  | none => rw [hf] at h; exact absurd h (by simp)
  | some vd =>
    rw [hf] at h
    by_cases hfc : vd.is_fact_checker = true
    · simp [hfc] at h
    · by_cases hst : vd.state.getD "uninfected" = "uninfected"
      · exact ⟨vd, rfl, by simpa using hfc, hst⟩
      · simp [hfc, hst] at h

theorem mem_foldl_contrib {G : Graph} {d : Defaults} {ud : NodeData} {u : ℕ}
    {l : List ℕ} {ex : List (ℕ × List ℚ)} {q : ℕ × List ℚ}
    (h : q ∈ l.foldl (fun ex w =>
        match contribAt G d ud u w with
        | some p => addExposure ex w p
        | none => ex) ex) :
    q ∈ ex ∨ ∃ vd, findNode G q.1 = some vd ∧ vd.is_fact_checker = false ∧
      vd.state.getD "uninfected" = "uninfected" := by
  induction l generalizing ex with
  | nil => exact Or.inl h
  | cons w l ih =>
    rw [List.foldl_cons] at h
    cases hc : contribAt G d ud u w with
    | none =>
      simp only [hc] at h
      exact ih h
    | some p =>
      simp only [hc] at h
      rcases ih h with h2 | h2
      · rcases mem_addExposure h2 with h3 | h3
        · obtain ⟨vd, hf, hfc, hst⟩ := contribAt_some hc
          exact Or.inr ⟨vd, h3 ▸ hf, hfc, hst⟩
        · exact Or.inl h3
      · exact Or.inr h2

theorem mem_exposeFrom {G : Graph} {d : Defaults} {ex : List (ℕ × List ℚ)}
    {u : ℕ} {q : ℕ × List ℚ} (h : q ∈ exposeFrom G d ex u) :
    q ∈ ex ∨ ∃ vd, findNode G q.1 = some vd ∧ vd.is_fact_checker = false ∧
      vd.state.getD "uninfected" = "uninfected" := by
  unfold exposeFrom at h
  cases hf : findNode G u with
  | none =>
    rw [hf] at h
    exact Or.inl h
  | some ud =>
    rw [hf] at h
    have h2 : q ∈ (if ud.is_fact_checker = true then ex
        else (neighbors G u).foldl (fun ex w =>
          match contribAt G d ud u w with
          | some p => addExposure ex w p
          | none => ex) ex) := h
    by_cases hfc : ud.is_fact_checker = true
    · rw [if_pos hfc] at h2
      exact Or.inl h2
    · rw [if_neg hfc] at h2
      exact mem_foldl_contrib h2

theorem mem_foldl_exposeFrom {G : Graph} {d : Defaults} {q : ℕ × List ℚ} :
    ∀ {cur : List ℕ} (ex : List (ℕ × List ℚ)),
      q ∈ cur.foldl (exposeFrom G d) ex →
      q ∈ ex ∨ ∃ vd, findNode G q.1 = some vd ∧ vd.is_fact_checker = false ∧
        vd.state.getD "uninfected" = "uninfected" := by
  intro cur
  induction cur with
  | nil => exact fun ex hq => Or.inl hq
  | cons u cur ih =>
    intro ex hq
    rw [List.foldl_cons] at hq
    rcases ih _ hq with h2 | h2
    · exact mem_exposeFrom h2
    · exact Or.inr h2

theorem mem_collectExposures_keys {G : Graph} {d : Defaults} {cur : List ℕ}
    {q : ℕ × List ℚ} (h : q ∈ collectExposures G d cur) :
    ∃ vd, findNode G q.1 = some vd ∧ vd.is_fact_checker = false ∧
      vd.state.getD "uninfected" = "uninfected" := by
  rcases mem_foldl_exposeFrom [] h with h2 | h2
  · simp at h2
  · exact h2

theorem mem_sampleNewly_aux {v : ℕ} :
    ∀ {ex : List (ℕ × List ℚ)} (acc : List ℕ) (g0 : RNG),
      v ∈ (ex.foldl (fun st q =>
        let r := st.2.next
        if r.1 < noisyOr q.2 then (st.1 ++ [q.1], r.2) else (st.1, r.2)) (acc, g0)).1 →
      v ∈ acc ∨ ∃ q ∈ ex, q.1 = v := by
  intro ex
  induction ex with
  | nil => exact fun acc g0 hq => Or.inl hq
  | cons q ex ih =>
    intro acc g0 hq
    rw [List.foldl_cons] at hq
    by_cases hlt : (g0.next).1 < noisyOr q.2
    · simp only [hlt, if_pos] at hq
      rcases ih _ _ hq with h2 | h2
      · rcases List.mem_append.mp h2 with h3 | h3
        · exact Or.inl h3
        · exact Or.inr ⟨q, List.mem_cons_self _ _, (List.mem_singleton.mp h3).symm⟩
      · obtain ⟨r, hr, hrv⟩ := h2
        exact Or.inr ⟨r, List.mem_cons_of_mem _ hr, hrv⟩
    · simp only [hlt, if_neg, not_false_iff] at hq
      rcases ih _ _ hq with h2 | h2
      · exact Or.inl h2
      · obtain ⟨r, hr, hrv⟩ := h2
        exact Or.inr ⟨r, List.mem_cons_of_mem _ hr, hrv⟩

theorem mem_sampleNewly {g : RNG} {ex : List (ℕ × List ℚ)} {v : ℕ}
    (h : v ∈ (sampleNewly g ex).1) : ∃ q ∈ ex, q.1 = v := by
  rcases mem_sampleNewly_aux [] g h with h2 | h2
  · simp at h2
  · exact h2

/-!  ## Attribute stability under the engine's mutations -/

theorem fcOf_setNodeState (G : Graph) (v : ℕ) (s : String) (n : ℕ) :
    fcOf (setNodeState G v s) n = fcOf G n := by
  unfold fcOf
  rw [findNode_setNodeState]
  by_cases h : n = v
  · rw [if_pos h]; cases findNode G n <;> rfl
  · rw [if_neg h]

theorem fcOf_setNodeTime (G : Graph) (v : ℕ) (t : Option ℕ) (n : ℕ) :
    fcOf (setNodeTime G v t) n = fcOf G n := by
  unfold fcOf
  rw [findNode_setNodeTime]
  by_cases h : n = v
  · rw [if_pos h]; cases findNode G n <;> rfl
  · rw [if_neg h]

theorem fcOf_resetStates (G : Graph) (n : ℕ) : fcOf (resetStates G) n = fcOf G n := by
  unfold fcOf
  rw [findNode_resetStates]
  cases findNode G n <;> rfl

theorem fcOf_applyNewly (G : Graph) (t : ℕ) (newly : List ℕ) (n : ℕ) :
    fcOf (applyNewly G t newly) n = fcOf G n := by
  induction newly generalizing G with
  | nil => rfl
  | cons v newly ih =>
    show fcOf (applyNewly (setNodeTime (setNodeState G v "infected") v (some t)) t newly) n = _
    rw [ih, fcOf_setNodeTime, fcOf_setNodeState]

/-- Each seeding iteration either leaves the graph alone or marks one
existing, non-fact-checker node. -/
theorem seedOne_cases {G G2 : Graph} {s : Option ℕ} (h : seedOne G s = Except.ok G2) :
    G2 = G ∨ ∃ n nd, s = some n ∧ findNode G n = some nd ∧
      nd.is_fact_checker = false ∧
      G2 = setNodeTime (setNodeState G n "infected") n (some 0) := by
  cases s with
  | none =>
    simp only [seedOne, Except.ok.injEq] at h
    exact Or.inl h.symm
  | some n =>
    simp only [seedOne] at h
    cases hf : findNode G n with
    | none => rw [hf] at h; exact absurd h (by simp)
    | some nd =>
      rw [hf] at h
      have h2 : (if nd.is_fact_checker = true then Except.ok G
          else if nd.state.isSome = true then
            Except.ok (setNodeTime (setNodeState G n "infected") n (some 0))
          else Except.ok G) = Except.ok G2 := h
      by_cases hfc : nd.is_fact_checker = true
      · rw [if_pos hfc] at h2
        exact Or.inl (Except.ok.inj h2).symm
      · rw [if_neg hfc] at h2
        by_cases hst : nd.state.isSome = true
        · rw [if_pos hst] at h2
          exact Or.inr ⟨n, nd, rfl, hf, by simpa using hfc, (Except.ok.inj h2).symm⟩
        · rw [if_neg hst] at h2
          exact Or.inl (Except.ok.inj h2).symm

theorem fcOf_seedOne {G G2 : Graph} {s : Option ℕ} (h : seedOne G s = Except.ok G2)
    (n : ℕ) : fcOf G2 n = fcOf G n := by
  rcases seedOne_cases h with rfl | ⟨m, nd, _, _, _, rfl⟩
  · rfl
  · rw [fcOf_setNodeTime, fcOf_setNodeState]

theorem seedAll_ok_cons {G G2 : Graph} {s : Option ℕ} {seeds : List (Option ℕ)}
    (h : seedAll G (s :: seeds) = Except.ok G2) :
    ∃ G1, seedOne G s = Except.ok G1 ∧ seedAll G1 seeds = Except.ok G2 := by
  rw [seedAll, List.foldlM_cons] at h
  cases hs : seedOne G s with
  | error e =>
    rw [hs] at h
    simp only [Bind.bind, Except.bind] at h
    exact Except.noConfusion h
  | ok G1 =>
    rw [hs] at h
    simp only [Bind.bind, Except.bind] at h
    exact ⟨G1, rfl, h⟩

theorem fcOf_seedAll {G G2 : Graph} {seeds : List (Option ℕ)}
    (h : seedAll G seeds = Except.ok G2) (n : ℕ) : fcOf G2 n = fcOf G n := by
  induction seeds generalizing G with
  | nil =>
    simp only [seedAll, List.foldlM_nil, pure, Except.pure, Except.ok.injEq] at h
    rw [← h]
  | cons s seeds ih =>
    obtain ⟨G1, hs, hrest⟩ := seedAll_ok_cons h
    rw [ih hrest, fcOf_seedOne hs]

theorem fcOf_runSteps (d : Defaults) (t k : ℕ) (st : SimState) (n : ℕ) :
    fcOf (runSteps d t k st).graph n = fcOf st.graph n := by
  induction k generalizing t st with
  | zero => rfl
  | succ k ih =>
    rw [runSteps, ih]
    exact fcOf_applyNewly _ _ _ _

theorem nodesScrub_setNodeState (G : Graph) (v : ℕ) (s : String) :
    nodesScrub (setNodeState G v s) = nodesScrub G := by
  unfold nodesScrub setNodeState
  rw [List.map_map]
  apply List.map_congr_left
  intro p _
  by_cases hpv : p.1 = v <;> simp [hpv, scrub]

theorem nodesScrub_setNodeTime (G : Graph) (v : ℕ) (t : Option ℕ) :
    nodesScrub (setNodeTime G v t) = nodesScrub G := by
  unfold nodesScrub setNodeTime
  rw [List.map_map]
  apply List.map_congr_left
  intro p _
  by_cases hpv : p.1 = v <;> simp [hpv, scrub]

theorem nodesScrub_resetStates (G : Graph) :
    nodesScrub (resetStates G) = nodesScrub G := by
  unfold nodesScrub resetStates
  rw [List.map_map]
  apply List.map_congr_left
  intro p _
  simp [scrub]

theorem nodesScrub_applyNewly (G : Graph) (t : ℕ) (newly : List ℕ) :
    nodesScrub (applyNewly G t newly) = nodesScrub G := by
  induction newly generalizing G with
  | nil => rfl
  | cons v newly ih =>
    show nodesScrub (applyNewly (setNodeTime (setNodeState G v "infected") v (some t)) t newly) = _
    rw [ih, nodesScrub_setNodeTime, nodesScrub_setNodeState]

theorem nodesScrub_seedOne {G G2 : Graph} {s : Option ℕ}
    (h : seedOne G s = Except.ok G2) : nodesScrub G2 = nodesScrub G := by
  rcases seedOne_cases h with rfl | ⟨m, nd, _, _, _, rfl⟩
  · rfl
  · rw [nodesScrub_setNodeTime, nodesScrub_setNodeState]

theorem nodesScrub_seedAll {G G2 : Graph} {seeds : List (Option ℕ)}
    (h : seedAll G seeds = Except.ok G2) : nodesScrub G2 = nodesScrub G := by
  induction seeds generalizing G with
  | nil =>
    simp only [seedAll, List.foldlM_nil, pure, Except.pure, Except.ok.injEq] at h
    rw [← h]
  | cons s seeds ih =>
    obtain ⟨G1, hs, hrest⟩ := seedAll_ok_cons h
    rw [ih hrest, nodesScrub_seedOne hs]

theorem nodesScrub_runSteps (d : Defaults) (t k : ℕ) (st : SimState) :
    nodesScrub (runSteps d t k st).graph = nodesScrub st.graph := by
  induction k generalizing t st with
  | zero => rfl
  | succ k ih =>
    rw [runSteps, ih]
    exact nodesScrub_applyNewly _ _ _

theorem idsOf_eq_map_nodesScrub (G : Graph) :
    idsOf G = (nodesScrub G).map Prod.fst := by
  unfold idsOf nodesScrub
  rw [List.map_map]
  rfl

theorem idsOf_eq_of_nodesScrub {G1 G2 : Graph}
    (h : nodesScrub G1 = nodesScrub G2) : idsOf G1 = idsOf G2 := by
  rw [idsOf_eq_map_nodesScrub, idsOf_eq_map_nodesScrub, h]

/-!  ## Fact-checker immunity invariants -/

theorem fcOf_eq_some_false_iff (G : Graph) (n : ℕ) :
    fcOf G n = some false ↔
      ∃ nd, findNode G n = some nd ∧ nd.is_fact_checker = false := by
  unfold fcOf
  cases findNode G n <;> simp

theorem FcU_resetStates {G : Graph}
    (hclean : ∀ p ∈ G.nodes, p.2.is_fact_checker = true →
      p.2.state.getD "uninfected" = "uninfected" ∧ p.2.infection_time = none) :
    FcU (resetStates G) := by
  intro p hp hfc
  obtain ⟨p0, hp0, rfl⟩ := List.mem_map.mp hp
  have h := hclean p0 hp0 hfc
  exact ⟨by simp [h.1], h.2⟩

theorem setTwice_nodes (G : Graph) (v : ℕ) (t : Option ℕ) :
    (setNodeTime (setNodeState G v "infected") v t).nodes =
      G.nodes.map (fun p => if p.1 = v then
        (p.1, { p.2 with state := some "infected", infection_time := t }) else p) := by
  show (G.nodes.map _).map _ = _
  rw [List.map_map]
  apply List.map_congr_left
  intro p _
  by_cases hpv : p.1 = v <;> simp [hpv]

theorem FcU_set_nonfc {G : Graph} {v : ℕ} {nd : NodeData}
    (hN : (idsOf G).Nodup) (hf : findNode G v = some nd)
    (hfc : nd.is_fact_checker = false) (hU : FcU G) (t : Option ℕ) :
    FcU (setNodeTime (setNodeState G v "infected") v t) := by
  intro p hp hpfc
  rw [setTwice_nodes] at hp
  obtain ⟨p0, hp0, rfl⟩ := List.mem_map.mp hp
  by_cases hpv : p0.1 = v
  · exfalso
    have hlk : lookupNode G.nodes p0.1 = some p0.2 := lookupNode_of_mem_nodup hp0 hN
    rw [hpv] at hlk
    have hnd : nd = p0.2 := Option.some.inj (hf.symm.trans hlk)
    simp only [hpv, if_pos] at hpfc
    rw [← hnd] at hpfc
    exact absurd (hfc.symm.trans hpfc) (by simp)
  · simp only [hpv, if_neg, not_false_iff] at hpfc ⊢
    exact hU p0 hp0 hpfc

theorem FcU_applyNewly {G : Graph} {t : ℕ} {newly : List ℕ}
    (hN : (idsOf G).Nodup)
    (hv : ∀ v ∈ newly, fcOf G v = some false)
    (hU : FcU G) : FcU (applyNewly G t newly) := by
  induction newly generalizing G with
  | nil => exact hU
  | cons v newly ih =>
    obtain ⟨nd, hf, hfc⟩ :=
      (fcOf_eq_some_false_iff G v).mp (hv v (List.mem_cons_self _ _))
    show FcU (applyNewly (setNodeTime (setNodeState G v "infected") v (some t)) t newly)
    have hscrub : nodesScrub (setNodeTime (setNodeState G v "infected") v (some t)) =
        nodesScrub G := by
      rw [nodesScrub_setNodeTime, nodesScrub_setNodeState]
    apply ih
    · rw [idsOf_eq_of_nodesScrub hscrub]
      exact hN
    · intro w hw
      rw [fcOf_setNodeTime, fcOf_setNodeState]
      exact hv w (List.mem_cons_of_mem _ hw)
    · exact FcU_set_nonfc hN hf hfc hU (some t)

theorem FcU_stepRound {G : Graph} {d : Defaults} {cur : List ℕ} {t : ℕ} {g : RNG}
    (hN : (idsOf G).Nodup) (hU : FcU G) :
    FcU (stepRound G d cur t g).1 := by
  apply FcU_applyNewly hN _ hU
  intro v hv
  obtain ⟨q, hq, rfl⟩ := mem_sampleNewly hv
  obtain ⟨vd, hfind, hfc, _⟩ := mem_collectExposures_keys hq
  exact (fcOf_eq_some_false_iff G q.1).mpr ⟨vd, hfind, hfc⟩

theorem fcOf_infected_false {G : Graph} (hN : (idsOf G).Nodup) (hU : FcU G)
    {n : ℕ} (h : n ∈ get_infected_nodes G) : fcOf G n = some false := by
  rw [mem_get_infected] at h
  obtain ⟨p, hp, h1, h2⟩ := h
  have hflag : p.2.is_fact_checker = false := by
    by_contra hc
    have hc2 : p.2.is_fact_checker = true := by
      revert hc; cases p.2.is_fact_checker <;> simp
    have := (hU p hp hc2).1
    rw [this] at h2
    exact absurd h2 (by simp)
  have hlk := lookupNode_of_mem_nodup hp hN
  rw [h1] at hlk
  exact (fcOf_eq_some_false_iff G n).mpr ⟨p.2, hlk, hflag⟩

theorem FcU_seedAll {G G2 : Graph} {seeds : List (Option ℕ)}
    (hN : (idsOf G).Nodup) (hU : FcU G)
    (h : seedAll G seeds = Except.ok G2) : FcU G2 := by
  induction seeds generalizing G with
  | nil =>
    simp only [seedAll, List.foldlM_nil, pure, Except.pure, Except.ok.injEq] at h
    rw [← h]
    exact hU
  | cons s seeds ih =>
    obtain ⟨G1, hs, hrest⟩ := seedAll_ok_cons h
    rcases seedOne_cases hs with rfl | ⟨m, nd, _, hf, hfc, rfl⟩
    · exact ih hN hU hrest
    · have hscrub : nodesScrub (setNodeTime (setNodeState G m "infected") m (some 0)) =
          nodesScrub G := by
        rw [nodesScrub_setNodeTime, nodesScrub_setNodeState]
      exact ih (by rw [idsOf_eq_of_nodesScrub hscrub]; exact hN)
        (FcU_set_nonfc hN hf hfc hU (some 0)) hrest

theorem runSteps_fc (d : Defaults) (G0 : Graph) :
    ∀ (k t : ℕ) (st : SimState),
      (idsOf st.graph).Nodup → FcU st.graph →
      (∀ n, fcOf st.graph n = fcOf G0 n) →
      (∀ l ∈ st.infection_history, ∀ n ∈ l, fcOf G0 n = some false) →
      FcU (runSteps d t k st).graph ∧
      (∀ l ∈ (runSteps d t k st).infection_history, ∀ n ∈ l, fcOf G0 n = some false) := by
  intro k
  induction k with
  | zero => exact fun t st _ hU _ hH => ⟨hU, hH⟩
  | succ k ih =>
    intro t st hN hU hEq hH
    rw [runSteps]
    have hscrub : nodesScrub (stepRound st.graph d st.current t st.rng).1 =
        nodesScrub st.graph := nodesScrub_applyNewly _ _ _
    have hN2 : (idsOf (stepRound st.graph d st.current t st.rng).1).Nodup := by
      rw [idsOf_eq_of_nodesScrub hscrub]
      exact hN
    have hU2 : FcU (stepRound st.graph d st.current t st.rng).1 := FcU_stepRound hN hU
    apply ih
    · exact hN2
    · exact hU2
    · intro n
      show fcOf (stepRound st.graph d st.current t st.rng).1 n = fcOf G0 n
      rw [show fcOf (stepRound st.graph d st.current t st.rng).1 n = fcOf st.graph n from
        fcOf_applyNewly _ _ _ _]
      exact hEq n
    · intro l hl n hn
      rcases List.mem_append.mp hl with hl2 | hl2
      · exact hH l hl2 n hn
      · have hleq := List.mem_singleton.mp hl2
        subst hleq
      

        have h3 := fcOf_infected_false hN2 hU2 hn
        rw [show fcOf (stepRound st.graph d st.current t st.rng).1 n = fcOf st.graph n from
          fcOf_applyNewly _ _ _ _] at h3
        rw [← hEq n]
        exact h3

/-- Destructuring a successful run of `simulate`. -/
theorem simulate_ok {seedFn : ℕ → ℕ → ℚ} {g0 : RNG} {G : Graph}
    {seeds : List (Option ℕ)} {T : ℕ} {rs : Option ℕ} {d : Defaults}
    {pr : Graph × SimResult}
    (h : simulate seedFn g0 G seeds T rs d = Except.ok pr) :
    ∃ G2, seedAll (resetStates G) seeds = Except.ok G2 ∧
      pr = buildResult (runSteps d 1 T (initSimState (seededRng seedFn g0 rs) G2)) := by
  unfold simulate at h
  cases hseed : seedAll (resetStates G) seeds with
  | error e =>
    rw [hseed] at h
    exact absurd h (by simp)
  | ok G2 =>
    rw [hseed] at h
    exact ⟨G2, rfl, (Except.ok.inj h).symm⟩

/-!  ## Monotonicity of the infected set -/

theorem runSteps_chain (d : Defaults) :
    ∀ (k t : ℕ) (st : SimState),
      List.Chain' (fun a b => ∀ n, n ∈ a → n ∈ b) st.infection_history →
      st.infection_history.getLast? = some st.current →
      st.current = get_infected_nodes st.graph →
      List.Chain' (fun a b => ∀ n, n ∈ a → n ∈ b)
        (runSteps d t k st).infection_history := by
  intro k
  induction k with
  | zero => exact fun t st hc _ _ => hc
  | succ k ih =>
    intro t st hc hlast hcur
    rw [runSteps]
    apply ih
    · rw [List.chain'_append]
      refine ⟨hc, List.chain'_singleton _, ?_⟩
      intro x hx y hy
      rw [hlast] at hx
      have hx2 : x = st.current := by
        have := hx
        simp only [Option.mem_def, Option.some.injEq] at this
        exact this.symm
      have hy2 : y = get_infected_nodes (stepRound st.graph d st.current t st.rng).1 := by
        have := hy
        simp only [List.head?_cons, Option.mem_def, Option.some.injEq] at this
        exact this.symm
      subst hx2
      subst hy2
      intro n hn
      rw [hcur] at hn
      exact mem_infected_applyNewly _ _ hn
    · exact List.getLast?_concat _
    · rfl

/-!  ## Seeding success -/

theorem findNode_isSome_setNodeState (G : Graph) (v : ℕ) (s : String) (n : ℕ) :
    (findNode (setNodeState G v s) n).isSome = (findNode G n).isSome := by
  rw [findNode_setNodeState]
  by_cases h : n = v
  · rw [if_pos h]; cases findNode G n <;> rfl
  · rw [if_neg h]

theorem findNode_isSome_setNodeTime (G : Graph) (v : ℕ) (t : Option ℕ) (n : ℕ) :
    (findNode (setNodeTime G v t) n).isSome = (findNode G n).isSome := by
  rw [findNode_setNodeTime]
  by_cases h : n = v
  · rw [if_pos h]; cases findNode G n <;> rfl
  · rw [if_neg h]

theorem findNode_isSome_resetStates (G : Graph) (n : ℕ) :
    (findNode (resetStates G) n).isSome = (findNode G n).isSome := by
  rw [findNode_resetStates]
  cases findNode G n <;> rfl

theorem findNode_isSome_seedOne {G G2 : Graph} {s : Option ℕ}
    (h : seedOne G s = Except.ok G2) (n : ℕ) :
    (findNode G2 n).isSome = (findNode G n).isSome := by
  rcases seedOne_cases h with rfl | ⟨m, nd, _, _, _, rfl⟩
  · rfl
  · rw [findNode_isSome_setNodeTime, findNode_isSome_setNodeState]

theorem seedOne_isOk {G : Graph} {s : Option ℕ}
    (hok : ∀ m, s = some m → (findNode G m).isSome = true) :
    ∃ G1, seedOne G s = Except.ok G1 := by
  cases s with
  | none => exact ⟨G, rfl⟩
  | some m =>
    have h1 := hok m rfl
    cases hf : findNode G m with
    | none => rw [hf] at h1; exact absurd h1 (by simp)
    | some nd =>
      by_cases hfc : nd.is_fact_checker = true
      · exact ⟨G, by simp [seedOne, hf, hfc]⟩
      · by_cases hst : nd.state.isSome = true
        · exact ⟨setNodeTime (setNodeState G m "infected") m (some 0),
            by simp [seedOne, hf, hfc, hst]⟩
        · exact ⟨G, by simp [seedOne, hf, hfc, hst]⟩

theorem seedAll_isOk :
    ∀ {seeds : List (Option ℕ)} {G : Graph},
      (∀ x ∈ seeds, ∀ m, x = some m → (findNode G m).isSome = true) →
      ∃ G2, seedAll G seeds = Except.ok G2 := by
  intro seeds
  induction seeds with
  | nil => exact fun _ => ⟨_, rfl⟩
  | cons s seeds ih =>
    intro G hok
    obtain ⟨G1, hs⟩ := seedOne_isOk (hok s (List.mem_cons_self _ _))
    have hok2 : ∀ x ∈ seeds, ∀ m, x = some m → (findNode G1 m).isSome = true := by
      intro x hx m hm
      rw [findNode_isSome_seedOne hs]
      exact hok x (List.mem_cons_of_mem _ hx) m hm
    obtain ⟨G2, hrest⟩ := ih hok2
    refine ⟨G2, ?_⟩
    rw [seedAll, List.foldlM_cons, hs]
    simpa [Bind.bind, Except.bind] using hrest

/-!  ## Claim theorems -/

/-- C1: in every round, the list of exposure probabilities the engine's
dict records against a target `v` is exactly the spec's list — one entry
`p = credulity(v) * tendency_to_share(u) * trust(u, v)` per exposing
out-edge of each informed non-fact-checker source, recorded exactly when
`p > 0` and `v` is an uninformed non-fact-checker — and the combined
activation probability the engine computes for that list is the noisy-OR
`1 - Π (1 - p_i)`. -/
theorem engine_exposures_and_noisy_or (G : Graph) (d : Defaults) (cur : List ℕ)
    (v : ℕ) :
    exLookup (collectExposures G d cur) v = specExposureList G d cur v ∧
    noisyOr (specExposureList G d cur v) =
      1 - ((specExposureList G d cur v).map (fun p => 1 - p)).prod :=
  ⟨exLookup_collectExposures G d cur v, noisyOr_eq_one_sub_prod _⟩

/-- C2 counterexample: with the informed set `{0, 1}` of `Gorder` and the
fixed random stream `gOrder`, processing order `[1, 0]` infects node 3 but
order `[0, 1]` does not, so the step's outcome does depend on the
processing order; `[0, 1]` and `[1, 0]` are the same informed set. -/
theorem step_outcome_order_dependent_cx :
    List.Perm [0, 1] [1, 0] ∧
    3 ∈ (stepRound Gorder dDef [1, 0] 1 gOrder).2.1 ∧
    3 ∉ (stepRound Gorder dDef [0, 1] 1 gOrder).2.1 := by decide!

/-- C2 amended: within a step, every recorded exposure probability comes
from a source in the step-start informed snapshot (a node newly informed at
step t contributes nothing at step t), and each node's combined activation
probability is invariant under permuting the processing order; however the
realized set of newly informed nodes under a fixed random stream may depend
on that order (see the counterexample). -/
theorem step_probabilities_order_invariant :
    (∀ (G : Graph) (d : Defaults) (cur cur2 : List ℕ) (v : ℕ), cur.Perm cur2 →
      noisyOr (exLookup (collectExposures G d cur) v) =
        noisyOr (exLookup (collectExposures G d cur2) v)) ∧
    (∀ (G : Graph) (d : Defaults) (cur : List ℕ) (v : ℕ) (p : ℚ),
      p ∈ exLookup (collectExposures G d cur) v →
      ∃ u ∈ cur, p ∈ sourceContribs G d u v) := by
  constructor
  · intro G d cur cur2 v hperm
    rw [exLookup_collectExposures, exLookup_collectExposures]
    exact noisyOr_perm (specExposureList_perm G d hperm v)
  · intro G d cur v p hp
    rw [exLookup_collectExposures] at hp
    unfold specExposureList at hp
    obtain ⟨l, hl, hpl⟩ := List.mem_flatten.mp hp
    obtain ⟨u, hu, rfl⟩ := List.mem_map.mp hl
    exact ⟨u, hu, hpl⟩

/-- Witness for the amended C2 at a concrete instance. -/
theorem step_probabilities_order_invariant_witness :
    noisyOr (exLookup (collectExposures Gorder dDef [0, 1]) 3) =
      noisyOr (exLookup (collectExposures Gorder dDef [1, 0]) 3) ∧
    ∃ u ∈ [0, 1], (9/10 : ℚ) ∈ sourceContribs Gorder dDef u 2 :=
  ⟨step_probabilities_order_invariant.1 Gorder dDef [0, 1] [1, 0] 3 (by decide!),
   step_probabilities_order_invariant.2 Gorder dDef [0, 1] 2 (9/10) (by decide!)⟩

/-- C3: evaluation at the failing input. The "reset" writes back
`data.get("state", "uninfected")`, so a node that arrives already marked
`"infected"` stays informed: with no seeds at all, `infection_history[0]`
contains node 0 and its final state is `"infected"`, contradicting the
claim that every run starts clean. -/
theorem reset_keeps_preexisting_state :
    historyOf (simulate cstStream rngC Gdirty [] 0 none dDef) = [[0]] ∧
    stateOf (simulate cstStream rngC Gdirty [] 0 none dDef) 0 = some "infected" := by
  decide!

/-- C4: evaluation at the failing input. Seeding reads
`G.nodes[s]["is_fact_checker"]` before any existence check, so a seed id
absent from the graph raises `KeyError` instead of being silently
skipped. -/
theorem missing_seed_id_raises_key_error :
    errOf (simulate cstStream rngC Gsolo [some 5] 1 none dDef) = some "KeyError" := by
  decide!

/-- C5 counterexample: with horizon 0 and a defaults record containing the
out-of-range value 2, the engine neither fails nor leaves the graph
untouched — it returns normally and has seeded node 0 to `"infected"`. -/
theorem no_config_validation_cx :
    (simulate cstStream rngC Gsolo [some 0] 0 none dBad).isOk = true ∧
    stateOf (simulate cstStream rngC Gsolo [some 0] 0 none dBad) 0 = some "infected" := by
  decide!

/-- C5 amended: the engine performs no validation at all: for every
horizon (including horizon < 1, which just runs zero diffusion rounds) and
every defaults record (including values outside [0,1], which are used
as-is), the run returns normally whenever every non-None seed id exists in
the graph; state is still reset and seeded. -/
theorem simulate_no_config_error (seedFn : ℕ → ℕ → ℚ) (g0 : RNG) (G : Graph)
    (seeds : List (Option ℕ)) (T : ℕ) (rs : Option ℕ) (d : Defaults)
    (hok : ∀ x ∈ seeds, ∀ m, x = some m → (findNode G m).isSome = true) :
    (simulate seedFn g0 G seeds T rs d).isOk = true := by
  have hok2 : ∀ x ∈ seeds, ∀ m, x = some m →
      (findNode (resetStates G) m).isSome = true := by
    intro x hx m hm
    rw [findNode_isSome_resetStates]
    exact hok x hx m hm
  obtain ⟨G2, hseed⟩ := seedAll_isOk hok2
  unfold simulate
  rw [hseed]
  rfl

/-- Witness for the amended C5: horizon 0 and an out-of-range default still
give a normal return. -/
theorem simulate_no_config_error_witness :
    (simulate cstStream rngC Gsolo [some 0] 0 none dBad).isOk = true :=
  simulate_no_config_error cstStream rngC Gsolo [some 0] 0 none dBad (by decide!)

/-- C8: with an explicit `random_seed`, the run is independent of the
ambient generator state: two runs with the same graph, seeds, horizon,
defaults and seed value return identical results (hence identical
`infection_history`, `time_series_new` and `time_series_total`). -/
theorem simulate_deterministic_with_seed (seedFn : ℕ → ℕ → ℚ) (g1 g2 : RNG)
    (G : Graph) (seeds : List (Option ℕ)) (T : ℕ) (s : ℕ) (d : Defaults) :
    simulate seedFn g1 G seeds T (some s) d =
      simulate seedFn g2 G seeds T (some s) d := rfl

/-- C10: a node with no `identity_type` attribute is treated as anonymous
by both fallbacks: its missing `tendency_to_share` resolves to
`default_propensity_anonymous`, and a missing `trust_weight` on an
out-edge whose source lacks `identity_type` resolves to
`default_trust_from_anonymous`. -/
theorem missing_identity_type_anonymous_fallback :
    (∀ (d : Defaults) (nd : NodeData), nd.identity_type = none →
      nd.tendency_to_share = none →
      effectiveTendency d nd = d.default_propensity_anonymous) ∧
    (∀ (G : Graph) (d : Defaults) (u v : ℕ) (ud : NodeData),
      ud.identity_type = none → get_edge_attr G u v = none →
      effectiveTrust G d u v ud = d.default_trust_from_anonymous) := by
  constructor
  · intro d nd h1 h2
    simp [effectiveTendency, h1, h2]
  · intro G d u v ud h1 h2
    simp [effectiveTrust, h1, h2]

/-- Witness for C10 at a concrete attribute-free node. -/
theorem missing_identity_type_anonymous_fallback_witness :
    effectiveTendency dDef ndBlank = dDef.default_propensity_anonymous ∧
    effectiveTrust Gsolo dDef 0 1 ndBlank = dDef.default_trust_from_anonymous :=
  ⟨missing_identity_type_anonymous_fallback.1 dDef ndBlank rfl rfl,
   missing_identity_type_anonymous_fallback.2 Gsolo dDef 0 1 ndBlank rfl (by decide!)⟩

/-- C6: the informed set is monotone along the trace: whenever
`infection_history[t]` and `infection_history[t+1]` both exist, every node
of the former is in the latter — once informed, never reverted. -/
theorem infection_history_monotone (seedFn : ℕ → ℕ → ℚ) (g0 : RNG) (G : Graph)
    (seeds : List (Option ℕ)) (T : ℕ) (rs : Option ℕ) (d : Defaults)
    (t : ℕ) (a b : List ℕ) (n : ℕ)
    (hta : (historyOf (simulate seedFn g0 G seeds T rs d)).get? t = some a)
    (htb : (historyOf (simulate seedFn g0 G seeds T rs d)).get? (t + 1) = some b)
    (hn : n ∈ a) : n ∈ b := by
  cases hr : simulate seedFn g0 G seeds T rs d with
  | error e =>
    rw [hr] at hta
    simp [historyOf] at hta
  | ok pr =>
    rw [hr] at hta htb
    obtain ⟨G2, hseed, hpr⟩ := simulate_ok hr
    subst hpr
    simp only [historyOf, buildResult] at hta htb
    have hchain := runSteps_chain d T 1 (initSimState (seededRng seedFn g0 rs) G2)
      (List.chain'_singleton _) (by simp [initSimState]) rfl
    obtain ⟨ha, hae⟩ := List.get?_eq_some.mp hta
    obtain ⟨hb, hbe⟩ := List.get?_eq_some.mp htb
    have hget := List.chain'_iff_get.mp hchain t (by omega)
    rw [← hbe]
    exact hget n (by rwa [← hae] at hn)

/-- Witness for C6 on a one-node seeded run over two recorded steps. -/
theorem infection_history_monotone_witness :
    (historyOf (simulate cstStream rngC Gsolo [some 0] 1 none dDef)).get? 0 =
      some [0] ∧
    (historyOf (simulate cstStream rngC Gsolo [some 0] 1 none dDef)).get? 1 =
      some [0] ∧
    0 ∈ ([0] : List ℕ) :=
  ⟨by decide!, by decide!,
   infection_history_monotone cstStream rngC Gsolo [some 0] 1 none dDef 0 [0] [0] 0
     (by decide!) (by decide!) (by decide!)⟩

/-- C9: a completed run never changes the graph structure or any attribute
other than `state` and `infection_time`: the edge list (with its
`trust_weight`s) is unchanged, and the node list with the two mutable
attributes erased (ids, order, `identity_type`, `credulity`,
`tendency_to_share`, `is_fact_checker`) is unchanged. -/
theorem simulate_graph_frame (seedFn : ℕ → ℕ → ℚ) (g0 : RNG) (G : Graph)
    (seeds : List (Option ℕ)) (T : ℕ) (rs : Option ℕ) (d : Defaults)
    (h : (simulate seedFn g0 G seeds T rs d).isOk = true) :
    (graphOf (simulate seedFn g0 G seeds T rs d)).edges = G.edges ∧
    nodesScrub (graphOf (simulate seedFn g0 G seeds T rs d)) = nodesScrub G := by
  cases hr : simulate seedFn g0 G seeds T rs d with
  | error e =>
    rw [hr] at h
    simp [Except.isOk, Except.toBool] at h
  | ok pr =>
    obtain ⟨G2, hseed, hpr⟩ := simulate_ok hr
    simp only [graphOf]
    subst hpr
    simp only [buildResult]
    constructor
    · rw [edges_runSteps]
      show G2.edges = G.edges
      rw [edges_seedAll hseed]
      rfl
    · rw [nodesScrub_runSteps]
      show nodesScrub G2 = nodesScrub G
      rw [nodesScrub_seedAll hseed]
      exact nodesScrub_resetStates G

/-- Witness for C9 on a concrete seeded run. -/
theorem simulate_graph_frame_witness :
    (graphOf (simulate cstStream rngC Gsolo [some 0] 1 none dDef)).edges =
      Gsolo.edges ∧
    nodesScrub (graphOf (simulate cstStream rngC Gsolo [some 0] 1 none dDef)) =
      nodesScrub Gsolo :=
  simulate_graph_frame cstStream rngC Gsolo [some 0] 1 none dDef (by decide!)

/-- C7 counterexample: the claim as stated fails because the broken reset
keeps pre-existing state: a fact-checker that arrives marked `"infected"`
appears in `infection_history[0]` and ends the run informed, with no seeds
at all. -/
theorem fact_checker_leak_cx :
    historyOf (simulate cstStream rngC Gfc [] 0 none dDef) = [[0]] ∧
    fcOf Gfc 0 = some true ∧
    stateOf (simulate cstStream rngC Gfc [] 0 none dDef) 0 = some "infected" := by
  decide!

/-- C7 amended: for an input graph with unique node ids whose fact-checkers
carry no pre-set `state` or `infection_time`, no fact-checker ever appears
in `infection_history`, and at the end of the run every fact-checker node
still has state `"uninfected"` and no infection time. -/
theorem fact_checker_immunity_clean_input (seedFn : ℕ → ℕ → ℚ) (g0 : RNG)
    (G : Graph) (seeds : List (Option ℕ)) (T : ℕ) (rs : Option ℕ) (d : Defaults)
    (hN : (idsOf G).Nodup)
    (hclean : ∀ p ∈ G.nodes, p.2.is_fact_checker = true →
      p.2.state.getD "uninfected" = "uninfected" ∧ p.2.infection_time = none)
    (hok : (simulate seedFn g0 G seeds T rs d).isOk = true) :
    (∀ l ∈ historyOf (simulate seedFn g0 G seeds T rs d), ∀ n ∈ l,
      fcOf G n = some false) ∧
    (∀ n, fcOf G n = some true →
      stateOf (simulate seedFn g0 G seeds T rs d) n = some "uninfected" ∧
      timeOf (simulate seedFn g0 G seeds T rs d) n = none) := by
  cases hr : simulate seedFn g0 G seeds T rs d with
  | error e =>
    rw [hr] at hok
    simp [Except.isOk, Except.toBool] at hok
  | ok pr =>
    obtain ⟨G2, hseed, hpr⟩ := simulate_ok hr
    have hNr : (idsOf (resetStates G)).Nodup := by
      rw [idsOf_eq_of_nodesScrub (nodesScrub_resetStates G)]
      exact hN
    have hUr : FcU (resetStates G) := FcU_resetStates hclean
    have hN2 : (idsOf G2).Nodup := by
      rw [idsOf_eq_of_nodesScrub (nodesScrub_seedAll hseed)]
      exact hNr
    have hU2 : FcU G2 := FcU_seedAll hNr hUr hseed
    have hfc2 : ∀ n, fcOf G2 n = fcOf G n := fun n =>
      (fcOf_seedAll hseed n).trans (fcOf_resetStates G n)
    have hH0 : ∀ l ∈ [get_infected_nodes G2], ∀ n ∈ l, fcOf G n = some false := by
      intro l hl n hn
      have hleq := List.mem_singleton.mp hl
      subst hleq
      have hfalse := fcOf_infected_false hN2 hU2 hn
      rw [hfc2 n] at hfalse
      exact hfalse
    obtain ⟨hUF, hHF⟩ := runSteps_fc d G T 1
      (initSimState (seededRng seedFn g0 rs) G2) hN2 hU2 hfc2 hH0
    constructor
    · intro l hl n hn
      rw [hpr] at hl
      simp only [historyOf, buildResult] at hl
      exact hHF l hl n hn
    · intro n hfcn
      have hstab : fcOf (runSteps d 1 T (initSimState (seededRng seedFn g0 rs) G2)).graph n =
          fcOf G n := by
        rw [fcOf_runSteps]
        show fcOf G2 n = fcOf G n
        exact hfc2 n
      have htrue := hstab.trans hfcn
      unfold fcOf at htrue
      cases hfind : findNode (runSteps d 1 T (initSimState (seededRng seedFn g0 rs) G2)).graph n with
      | none => rw [hfind] at htrue; simp at htrue
      | some nd =>
        rw [hfind] at htrue
        have hflag : nd.is_fact_checker = true := by simpa using htrue
        have hmem : (n, nd) ∈ (runSteps d 1 T (initSimState (seededRng seedFn g0 rs) G2)).graph.nodes :=
          lookupNode_mem hfind
        have hres := hUF (n, nd) hmem hflag
        rw [hpr]
        constructor
        · simp only [stateOf, buildResult]
          rw [hfind]
          exact hres.1
        · simp only [timeOf, buildResult]
          rw [hfind]
          exact hres.2

/-- Witness for the amended C7: a fact-checker adjacent to an informed
seed stays uninformed through a run. -/
theorem fact_checker_immunity_clean_input_witness :
    (∀ l ∈ historyOf (simulate cstStream rngC GfcClean [some 0] 1 none dDef),
      ∀ n ∈ l, fcOf GfcClean n = some false) ∧
    (∀ n, fcOf GfcClean n = some true →
      stateOf (simulate cstStream rngC GfcClean [some 0] 1 none dDef) n =
        some "uninfected" ∧
      timeOf (simulate cstStream rngC GfcClean [some 0] 1 none dDef) n = none) :=
  fact_checker_immunity_clean_input cstStream rngC GfcClean [some 0] 1 none dDef
    (by decide!) (by decide!) (by decide!)
